import Mathlib

/-!
Verification of the knowledge-pad PDF indexing core (`vector_db.py`, `app.py`).

Texts are embedded as `List Char` (one element per Python code point), page
numbers and chunk indices as `Nat`, Milvus scores as `ℚ`, and the fallible
PDF read as `Except`.  The embedding model (`SentenceTransformer.encode`) and
the Milvus COSINE scoring function are external collaborators and enter as
explicit function parameters.
-/

namespace KnowledgePad

/-- Python whitespace predicate used by `str.strip()`: ASCII whitespace
(TAB..CR, FS..US, SPACE) plus the Unicode space code points Python treats as
`str.isspace`. -/
def isPySpace (c : Char) : Bool :=
  (9 ≤ c.toNat && c.toNat ≤ 13) || (28 ≤ c.toNat && c.toNat ≤ 32) ||
  c.toNat = 0x85 || c.toNat = 0xa0 || c.toNat = 0x1680 ||
  (0x2000 ≤ c.toNat && c.toNat ≤ 0x200a) ||
  c.toNat = 0x2028 || c.toNat = 0x2029 || c.toNat = 0x202f ||
  c.toNat = 0x205f || c.toNat = 0x3000

/-- Python `s.strip()`: drop leading and trailing whitespace. -/
def pyStrip (l : List Char) : List Char :=
  ((l.dropWhile isPySpace).reverse.dropWhile isPySpace).reverse

/-- Python `s.rfind(c)`: index of the last occurrence of `c`, `-1` if absent. -/
def rfindChar : List Char → Char → Int
  | [], _ => -1
  | a :: rest, c =>
    let r := rfindChar rest c
    if 0 ≤ r then r + 1 else if a = c then 0 else -1

/-- Python slice `l[a:b]` with the usual clamping of out-of-range bounds and
wrapping of negative indices. -/
def pySlice (l : List Char) (a b : Int) : List Char :=
  let n : Int := l.length
  let lo := if a < 0 then max (n + a) 0 else min a n
  let hi := if b < 0 then max (n + b) 0 else min b n
  (l.take hi.toNat).drop lo.toNat

/-- `enumIdx n l` pairs the elements of `l` with indices `n, n+1, ...`
(Python `enumerate(l, start=n)`). -/
def enumIdx : Nat → List α → List (Nat × α)
  | _, [] => []
  | n, a :: as => (n, a) :: enumIdx (n + 1) as

/-!
## Chunker (`chunk_text`, vector_db.py lines 128–162)

One loop iteration of the `while start < text_length` loop: the tentative
window is `text[start:start+chunk_size]`; if it ends strictly before the end
of the text, the code looks for the later of the last `'.'` and the last
`'\n'` in the window and, when that (relative) break point satisfies the
float comparison `break_point > chunk_size * 0.5` — for integers this is
exactly `2 * break_point > chunk_size` — re-slices the chunk to end at the
break point inclusive.  The stripped chunk is emitted and the cursor moves to
`end - overlap`.
-/

/-- One iteration of the `chunk_text` loop: returns the emitted (stripped)
chunk and the next value of `start`. -/
def chunkStep (t : List Char) (cs ov : Nat) (start : Int) : List Char × Int :=
  let n : Int := t.length
  let endFull : Int := start + cs
  let chunk0 := pySlice t start endFull
  let res :=
    if endFull < n then
      let lastPeriod := rfindChar chunk0 '.'
      let lastNewline := rfindChar chunk0 '\n'
      let breakPoint := max lastPeriod lastNewline
      if 2 * breakPoint > (cs : Int) then
        (pySlice t start (start + breakPoint + 1), start + breakPoint + 1)
      else (chunk0, endFull)
    else (chunk0, endFull)
  (pyStrip res.1, res.2 - ov)

/-- The `chunk_text` loop, fuel-indexed (the Python loop has no structural
termination measure; `chunk_text` below supplies enough fuel for every
terminating run starting from `start = 0`). -/
def chunkTextFuel (t : List Char) (cs ov : Nat) : Nat → Int → List (List Char)
  | 0, _ => []
  | fuel + 1, start =>
    if start < (t.length : Int) then
      let s := chunkStep t cs ov start
      s.1 :: chunkTextFuel t cs ov fuel s.2
    else []

/-- `chunk_text(text, chunk_size, overlap)` from vector_db.py. -/
def chunk_text (t : List Char) (cs ov : Nat) : List (List Char) :=
  chunkTextFuel t cs ov (t.length + 1) 0

/-- The window end prescribed by the spec's §4.2 steps 1–2, written from the
spec's words: search backward in the window for the last period or newline,
take whichever is later, and if that break point lies past the halfway point
of the window, end the chunk at the break point (inclusive); otherwise keep
the full-size window. -/
def specWindowEnd (t : List Char) (cs : Nat) (start : Int) : Int :=
  if start + cs < (t.length : Int) then
    let window := pySlice t start (start + cs)
    let breakPoint := max (rfindChar window '.') (rfindChar window '\n')
    if 2 * breakPoint > (cs : Int) then start + breakPoint + 1 else start + cs
  else start + cs

/-- The chunking algorithm as the spec's §4.2 words it: emit the window's
text trimmed (step 3), advance `start` to `end - overlap` (step 4), repeat
while `start < text_length` (step 5). -/
def specChunkerFuel (t : List Char) (cs ov : Nat) : Nat → Int → List (List Char)
  | 0, _ => []
  | fuel + 1, start =>
    if start < (t.length : Int) then
      pyStrip (pySlice t start (specWindowEnd t cs start)) ::
        specChunkerFuel t cs ov fuel (specWindowEnd t cs start - ov)
    else []

theorem chunkStep_eq_spec (t : List Char) (cs ov : Nat) (start : Int) :
    chunkStep t cs ov start =
      (pyStrip (pySlice t start (specWindowEnd t cs start)),
        specWindowEnd t cs start - ov) := by
  unfold chunkStep specWindowEnd
  by_cases h : start + (cs : Int) < (t.length : Int)
  · simp only [h, if_pos]
    by_cases hb : 2 * max (rfindChar (pySlice t start (start + cs)) '.')
        (rfindChar (pySlice t start (start + cs)) '\n') > (cs : Int)
    · simp [hb]
    · simp [hb]
  · simp [h]

theorem chunkTextFuel_eq_spec (t : List Char) (cs ov : Nat) :
    ∀ fuel start, chunkTextFuel t cs ov fuel start = specChunkerFuel t cs ov fuel start := by
  intro fuel
  induction fuel with
  | zero => intro start; rfl
  | succ n ih =>
    intro start
    unfold chunkTextFuel specChunkerFuel
    by_cases h : start < (t.length : Int)
    · simp only [h, if_pos, chunkStep_eq_spec, ih]
    · simp [h]

/-- Next value of the loop cursor `start` after one `chunk_text` iteration. -/
def stepStart (t : List Char) (cs ov : Nat) (s : Int) : Int :=
  (chunkStep t cs ov s).2

/-!
## Chunk identity (`generate_chunk_id`, vector_db.py lines 164–167)

`hashlib.md5(content.encode()).hexdigest()` — MD5 (RFC 1321) of the UTF-8
bytes of `f"{pdf_filename}_{page_num}_{chunk_idx}"`, rendered as 32 lowercase
hex digits.  MD5 is implemented here in full on `Nat` with arithmetic
mod `2^32`.
-/

/-- Truncate to a 32-bit word. -/
def w32 (n : Nat) : Nat := n % 4294967296

/-- 32-bit left rotation (argument assumed `< 2^32`). -/
def rotl32 (x s : Nat) : Nat := w32 (x * 2 ^ s) ||| x / 2 ^ (32 - s)

/-- The 64 MD5 sine-derived round constants. -/
def md5K : List Nat :=
  [0xd76aa478, 0xe8c7b756, 0x242070db, 0xc1bdceee,
   0xf57c0faf, 0x4787c62a, 0xa8304613, 0xfd469501,
   0x698098d8, 0x8b44f7af, 0xffff5bb1, 0x895cd7be,
   0x6b901122, 0xfd987193, 0xa679438e, 0x49b40821,
   0xf61e2562, 0xc040b340, 0x265e5a51, 0xe9b6c7aa,
   0xd62f105d, 0x02441453, 0xd8a1e681, 0xe7d3fbc8,
   0x21e1cde6, 0xc33707d6, 0xf4d50d87, 0x455a14ed,
   0xa9e3e905, 0xfcefa3f8, 0x676f02d9, 0x8d2a4c8a,
   0xfffa3942, 0x8771f681, 0x6d9d6122, 0xfde5380c,
   0xa4beea44, 0x4bdecfa9, 0xf6bb4b60, 0xbebfbc70,
   0x289b7ec6, 0xeaa127fa, 0xd4ef3085, 0x04881d05,
   0xd9d4d039, 0xe6db99e5, 0x1fa27cf8, 0xc4ac5665,
   0xf4292244, 0x432aff97, 0xab9423a7, 0xfc93a039,
   0x655b59c3, 0x8f0ccc92, 0xffeff47d, 0x85845dd1,
   0x6fa87e4f, 0xfe2ce6e0, 0xa3014314, 0x4e0811a1,
   0xf7537e82, 0xbd3af235, 0x2ad7d2bb, 0xeb86d391]

/-- The 64 MD5 per-round shift amounts. -/
def md5S : List Nat :=
  [7, 12, 17, 22, 7, 12, 17, 22, 7, 12, 17, 22, 7, 12, 17, 22,
   5, 9, 14, 20, 5, 9, 14, 20, 5, 9, 14, 20, 5, 9, 14, 20,
   4, 11, 16, 23, 4, 11, 16, 23, 4, 11, 16, 23, 4, 11, 16, 23,
   6, 10, 15, 21, 6, 10, 15, 21, 6, 10, 15, 21, 6, 10, 15, 21]

/-- Group a block's bytes into little-endian 32-bit words. -/
def chunkWords : List Nat → List Nat
  | b0 :: b1 :: b2 :: b3 :: rest =>
    (b0 + 256 * (b1 + 256 * (b2 + 256 * b3))) :: chunkWords rest
  | _ => []

/-- One MD5 round, state `(a, b, c, d)`, round index `i`. -/
def md5Round (M : List Nat) (st : Nat × Nat × Nat × Nat) (i : Nat) :
    Nat × Nat × Nat × Nat :=
  let a := st.1
  let b := st.2.1
  let c := st.2.2.1
  let d := st.2.2.2
  let fg : Nat × Nat :=
    if i < 16 then ((b &&& c) ||| ((b ^^^ 0xffffffff) &&& d), i)
    else if i < 32 then ((d &&& b) ||| ((d ^^^ 0xffffffff) &&& c), (5 * i + 1) % 16)
    else if i < 48 then (b ^^^ c ^^^ d, (3 * i + 5) % 16)
    else (c ^^^ (b ||| (d ^^^ 0xffffffff)), (7 * i) % 16)
  let f2 := w32 (fg.1 + a + md5K.getD i 0 + M.getD fg.2 0)
  (d, w32 (b + rotl32 f2 (md5S.getD i 0)), b, c)

/-- Process one 64-byte block. -/
def md5ProcessBlock (st : Nat × Nat × Nat × Nat) (block : List Nat) :
    Nat × Nat × Nat × Nat :=
  let M := chunkWords block
  let r := (List.range 64).foldl (md5Round M) st
  (w32 (st.1 + r.1), w32 (st.2.1 + r.2.1),
    w32 (st.2.2.1 + r.2.2.1), w32 (st.2.2.2 + r.2.2.2))

/-- 8 little-endian bytes of a 64-bit length field. -/
def le8 (n : Nat) : List Nat :=
  [n % 256, n / 2 ^ 8 % 256, n / 2 ^ 16 % 256, n / 2 ^ 24 % 256,
   n / 2 ^ 32 % 256, n / 2 ^ 40 % 256, n / 2 ^ 48 % 256, n / 2 ^ 56 % 256]

/-- MD5 padding: `0x80`, zeros to 56 mod 64, then the bit length. -/
def md5Pad (msg : List Nat) : List Nat :=
  msg ++ 0x80 :: List.replicate ((120 - (msg.length + 1) % 64) % 64) 0 ++
    le8 (8 * msg.length % 2 ^ 64)

/-- Fold the compression function over all 64-byte blocks (fuel-indexed on
the byte count, which strictly decreases by 64 each step). -/
def md5Blocks : Nat → (Nat × Nat × Nat × Nat) → List Nat → Nat × Nat × Nat × Nat
  | 0, st, _ => st
  | fuel + 1, st, bytes =>
    if bytes.isEmpty then st
    else md5Blocks fuel (md5ProcessBlock st (bytes.take 64)) (bytes.drop 64)

/-- MD5 initial state. -/
def md5Init : Nat × Nat × Nat × Nat := (0x67452301, 0xefcdab89, 0x98badcfe, 0x10325476)

/-- Final MD5 state over a byte message. -/
def md5Words (msg : List Nat) : Nat × Nat × Nat × Nat :=
  md5Blocks (md5Pad msg).length md5Init (md5Pad msg)

/-- Little-endian bytes of one state word. -/
def wordLE (w : Nat) : List Nat :=
  [w % 256, w / 256 % 256, w / 65536 % 256, w / 16777216 % 256]

/-- The 16-byte MD5 digest. -/
def md5Bytes (msg : List Nat) : List Nat :=
  wordLE (md5Words msg).1 ++ wordLE (md5Words msg).2.1 ++
    wordLE (md5Words msg).2.2.1 ++ wordLE (md5Words msg).2.2.2

/-- Lowercase hex digit for `n < 16`. -/
def hexDigit (n : Nat) : Char :=
  if n < 10 then Char.ofNat (48 + n) else Char.ofNat (87 + n)

/-- `hashlib.md5(...).hexdigest()`: the digest as 32 lowercase hex chars. -/
def md5hex (msg : List Nat) : String :=
  String.mk ((md5Bytes msg).foldr
    (fun b acc => hexDigit (b / 16) :: hexDigit (b % 16) :: acc) [])

/-- UTF-8 bytes of one code point (Python `str.encode()` per character). -/
def utf8Char (c : Char) : List Nat :=
  let n := c.toNat
  if n < 128 then [n]
  else if n < 2048 then [192 + n / 64, 128 + n % 64]
  else if n < 65536 then [224 + n / 4096, 128 + n / 64 % 64, 128 + n % 64]
  else [240 + n / 262144, 128 + n / 4096 % 64, 128 + n / 64 % 64, 128 + n % 64]

/-- Python `content.encode()`: UTF-8 bytes of a string. -/
def utf8Encode (s : String) : List Nat :=
  s.toList.foldr (fun c acc => utf8Char c ++ acc) []

/-- `generate_chunk_id(pdf_filename, page_num, chunk_idx)` from vector_db.py:
MD5 hex digest of `f"{pdf_filename}_{page_num}_{chunk_idx}"`. -/
def generate_chunk_id (pdf_filename : String) (page_num chunk_idx : Nat) : String :=
  md5hex (utf8Encode (pdf_filename ++ "_" ++ toString page_num ++ "_" ++ toString chunk_idx))

/-!
## Text extraction (`extract_text_from_pdf`, vector_db.py lines 99–126)

The PyPDF2 read is the fallible external step: `readResult` is `.ok pages`
(the per-page `extract_text()` strings, in physical order) when reading
succeeds and `.error e` when `open`/`PdfReader`/`extract_text` raises.  The
Python code wraps everything in `try/except Exception: return []`.
-/

/-- `extract_text_from_pdf`: pages are numbered from 1 and kept only when
`text.strip()` is truthy; any exception is caught and the function returns
the empty list. -/
def extract_text_from_pdf (readResult : Except String (List (List Char))) :
    List (Nat × List Char) :=
  match readResult with
  | .error _ => []
  | .ok pages => (enumIdx 1 pages).filter fun p => !(pyStrip p.2).isEmpty

/-!
## Index Store (Milvus collection created by `_create_collection`,
vector_db.py lines 36–97)

The schema declares `id` as an `INT64` primary key with `auto_id=True`;
`chunk_id` is an ordinary `VARCHAR` payload field, not the key.  Hence
`client.insert` appends every row under a fresh auto-assigned key — there is
no upsert-by-`chunk_id`.  The vector index is FLAT with `metric_type=COSINE`;
for that metric Milvus reports the hit's `distance` field as the cosine
similarity (larger = closer).  The scoring function is abstracted as a
parameter `sim` below.
-/

/-- One row as handed to `client.insert` in `add_pdf_to_db`. -/
structure InsertRow where
  embedding : List ℚ
  text_chunk : List Char
  pdf_filename : String
  page_number : Nat
  chunk_id : String
deriving DecidableEq

/-- The collection's state: rows keyed by the auto-assigned `INT64`
primary key. -/
abbrev MilvusStore := List (Nat × InsertRow)

/-- `client.insert`: `auto_id=True` assigns fresh primary keys, so a batch
insert appends its rows. -/
def milvusInsert (store : MilvusStore) (rows : List InsertRow) : MilvusStore :=
  store ++ enumIdx store.length rows

/-- `get_collection_stats(...)['row_count']`. -/
def rowCount (store : MilvusStore) : Nat := store.length

/-- One search hit as returned by `client.search`: for `metric_type=COSINE`
the `distance` field carries the similarity score `sim` assigns to the pair
of query and stored embedding. -/
structure Hit where
  distance : ℚ
  text_chunk : List Char
  pdf_filename : String
  page_number : Nat
  chunk_id : String
deriving DecidableEq

/-- Insert a hit into a list sorted by descending `distance`, after any
already-present hit with an equal or larger score (stable). -/
def insertHit (x : Hit) : List Hit → List Hit
  | [] => [x]
  | y :: ys => if y.distance < x.distance then x :: y :: ys else y :: insertHit x ys

/-- Sort hits by descending `distance` (insertion sort, stable). -/
def sortHits : List Hit → List Hit
  | [] => []
  | x :: xs => insertHit x (sortHits xs)

/-- `client.search` on the collection: keep the rows matching the filter
expression (when one is supplied), score each against the query embedding
with the COSINE metric `sim`, rank by descending score and return at most
`limit` hits. -/
def milvusSearch (store : MilvusStore) (sim : List ℚ → List ℚ → ℚ)
    (queryEmbedding : List ℚ) (limit : Nat) (filterExpr : Option String) :
    List Hit :=
  let matched := store.filter fun p =>
    match filterExpr with
    | some f => p.2.pdf_filename = f
    | none => true
  let hits := matched.map fun p =>
    ⟨sim queryEmbedding p.2.embedding, p.2.text_chunk, p.2.pdf_filename,
      p.2.page_number, p.2.chunk_id⟩
  (sortHits hits).take limit

/-!
## Ingest (`add_pdf_to_db`, vector_db.py lines 169–247)

The per-page loop enumerates `chunk_text(page_text, 500, 50)`, skips chunks
shorter than 50 characters (`continue`), embeds the full chunk, stores
`chunk[:2000]`, and derives `chunk_id` from the *enumerate* index.  The
Python function ends without a `return` statement on every path, so its
return value is always `None` — modelled as the constantly-`none` second
component.
-/

/-- The rows the `for chunk_idx, chunk in enumerate(chunks)` loop collects
for one page. -/
def pageRows (embedF : List Char → List ℚ) (pdf_filename : String)
    (page_num : Nat) (chunks : List (List Char)) : List InsertRow :=
  (enumIdx 0 chunks).filterMap fun ic =>
    if ic.2.length < 50 then none
    else some ⟨embedF ic.2, ic.2.take 2000, pdf_filename, page_num,
      generate_chunk_id pdf_filename page_num ic.1⟩

/-- All rows `add_pdf_to_db` prepares for insertion, over all extracted
pages. -/
def prepareData (embedF : List Char → List ℚ) (pdf_filename : String)
    (page_chunks : List (Nat × List Char)) : List InsertRow :=
  page_chunks.flatMap fun pd => pageRows embedF pdf_filename pd.1 (chunk_text pd.2 500 50)

/-- `add_pdf_to_db(pdf_path, pdf_filename)`: extract, chunk, filter, embed,
insert.  Returns the new store plus the Python return value — `None` on
every path (early return on empty extraction, the `if embeddings:` insert
branch, and the `else` branch all fall off the function without a value). -/
def add_pdf_to_db (store : MilvusStore) (embedF : List Char → List ℚ)
    (pdf_filename : String) (readResult : Except String (List (List Char))) :
    MilvusStore × Option Nat :=
  let page_chunks := extract_text_from_pdf readResult
  if page_chunks.isEmpty then (store, none)
  else
    let rows := prepareData embedF pdf_filename page_chunks
    if rows.isEmpty then (store, none)
    else (milvusInsert store rows, none)

/-!
## Retrieval (`search`, vector_db.py lines 249–292) and the upload endpoint
(`upload_pdf`, app.py lines 112–160)
-/

/-- One formatted result of `KnowledgePadVectorDB.search`. -/
structure SearchResult where
  text : List Char
  pdf_filename : String
  page_number : Nat
  similarity_score : ℚ
  chunk_id : String
deriving DecidableEq

/-- `search(query, top_k, filter_pdf)`: embed the query, build
`filter_expr` only when `filter_pdf` is truthy (Python `if filter_pdf:` — an
empty string builds no filter), call `client.search`, and copy each hit's
`distance` field unchanged into `similarity_score`. -/
def search (store : MilvusStore) (embedF : String → List ℚ)
    (sim : List ℚ → List ℚ → ℚ) (query : String) (top_k : Nat)
    (filter_pdf : Option String) : List SearchResult :=
  let query_embedding := embedF query
  let filter_expr : Option String :=
    match filter_pdf with
    | some f => if f = "" then none else some f
    | none => none
  let results := milvusSearch store sim query_embedding top_k filter_expr
  results.map fun h =>
    ⟨h.text_chunk, h.pdf_filename, h.page_number, h.distance, h.chunk_id⟩

/-- The JSON body `upload_pdf` answers with (success flag and message). -/
structure UploadResponse where
  ok : Bool
  message : String
deriving DecidableEq

/-- `upload_pdf` (app.py): after the R2 upload succeeds it calls
`add_pdf_to_db` (discarding its `None` result) and returns the same success
response regardless of how many chunks were indexed; an R2 failure returns
an error response. -/
def upload_pdf (store : MilvusStore) (embedF : List Char → List ℚ)
    (filename : String) (readResult : Except String (List (List Char)))
    (r2_ok : Bool) : MilvusStore × UploadResponse :=
  if r2_ok then
    ((add_pdf_to_db store embedF filename readResult).1,
      ⟨true, "Successfully uploaded and indexed " ++ filename⟩)
  else (store, ⟨false, "Upload to storage failed"⟩)

/-!
## Concrete fixtures used by witnesses and counterexamples
-/

/-- A deterministic stand-in for the SentenceTransformer encoder. -/
def exEmbed : List Char → List ℚ := fun _ => [1]

/-- Sixty `'a'`s: one chunk that survives the 50-character minimum. -/
def sixtyAs : List Char := List.replicate 60 'a'

/-- Sixty `'b'`s. -/
def sixtyBs : List Char := List.replicate 60 'b'

/-- A successfully-read one-page PDF whose page text is `sixtyAs`. -/
def exDoc : Except String (List (List Char)) := .ok [sixtyAs]

/-- A successfully-read one-page PDF whose only chunk is shorter than 50
characters. -/
def shortDoc : Except String (List (List Char)) := .ok ["hi.".toList]

/-- The store after ingesting `exDoc` once into an empty collection. -/
def exStore1 : MilvusStore := (add_pdf_to_db [] exEmbed "doc.pdf" exDoc).1

/-- The store after ingesting `exDoc` a second time. -/
def exStore2 : MilvusStore := (add_pdf_to_db exStore1 exEmbed "doc.pdf" exDoc).1

/-- The row the ingest of `exDoc` stores. -/
def exRow : InsertRow :=
  ⟨exEmbed sixtyAs, sixtyAs, "doc.pdf", 1, generate_chunk_id "doc.pdf" 1 0⟩

/-- A stored row attributed to `"a.pdf"`, for the search fixtures. -/
def rowA : InsertRow := ⟨[1], ['x'], "a.pdf", 1, generate_chunk_id "a.pdf" 1 0⟩

/-- The input on which the `chunk_text` cursor stalls with
`chunk_size = 10, overlap = 7`. -/
def stallText : List Char := "abcdef.xyzABCDE".toList

/-- Lowercase hexadecimal alphabet membership. -/
def isLowerHexDigit (c : Char) : Bool :=
  (48 ≤ c.toNat && c.toNat ≤ 57) || (97 ≤ c.toNat && c.toNat ≤ 102)

/-!
## Helper lemmas
-/

theorem length_enumIdx (l : List α) : ∀ n, (enumIdx n l).length = l.length := by
  induction l with
  | nil => intro n; rfl
  | cons a as ih => intro n; simp [enumIdx, ih]

theorem snd_mem_of_mem_enumIdx {l : List α} :
    ∀ {n : Nat} {p : Nat × α}, p ∈ enumIdx n l → p.2 ∈ l := by
  induction l with
  | nil => intro n p h; cases h
  | cons a as ih =>
    intro n p h
    simp only [enumIdx, List.mem_cons] at h
    rcases h with h | h
    · subst h; exact List.mem_cons_self _ _
    · exact List.mem_cons_of_mem _ (ih h)

theorem mem_insertHit {a x : Hit} :
    ∀ {l : List Hit}, a ∈ insertHit x l ↔ a = x ∨ a ∈ l := by
  intro l
  induction l with
  | nil => simp [insertHit]
  | cons y ys ih =>
    by_cases h : y.distance < x.distance
    · simp [insertHit, h]
    · simp only [insertHit, if_neg h, List.mem_cons, ih]
      tauto

theorem mem_sortHits {a : Hit} : ∀ {l : List Hit}, a ∈ sortHits l ↔ a ∈ l := by
  intro l
  induction l with
  | nil => simp [sortHits]
  | cons x xs ih => simp [sortHits, mem_insertHit, ih]

theorem mem_milvusSearch {store : MilvusStore} {sim : List ℚ → List ℚ → ℚ}
    {q : List ℚ} {k : Nat} {fe : Option String} {h : Hit}
    (hm : h ∈ milvusSearch store sim q k fe) :
    ∃ p, p ∈ store ∧ (∀ f, fe = some f → p.2.pdf_filename = f) ∧
      h = ⟨sim q p.2.embedding, p.2.text_chunk, p.2.pdf_filename,
        p.2.page_number, p.2.chunk_id⟩ := by
  unfold milvusSearch at hm
  have h1 := List.mem_of_mem_take hm
  rw [mem_sortHits, List.mem_map] at h1
  obtain ⟨p, hp, hph⟩ := h1
  rw [List.mem_filter] at hp
  refine ⟨p, hp.1, ?_, hph.symm⟩
  intro f hf
  have := hp.2
  rw [hf] at this
  simpa using this

/-!
## C1 — boundary snapping of `chunk_text`
-/

/-- C1: `chunk_text` follows the spec's boundary-snapping algorithm — every
loop iteration emits the trimmed window ending at the later of the last `'.'`
and the last newline when that break point lies past half the window, and at
the full window otherwise (`chunkTextFuel` coincides with `specChunkerFuel`
written from the spec's steps 1–5); in particular chunking
`"Sentence one. Sentence two. Sentence three."` with `chunk_size = 20`,
`overlap = 5` yields `"Sentence one."` as the first chunk. -/
theorem chunk_text_boundary_snapping :
    (∀ (t : List Char) (cs ov fuel : Nat) (start : Int),
        chunkTextFuel t cs ov fuel start = specChunkerFuel t cs ov fuel start) ∧
      chunk_text "Sentence one. Sentence two. Sentence three.".toList 20 5 =
        ["Sentence one.".toList, "one. Sentence two.".toList,
          "two. Sentence three".toList, "three.".toList] :=
  ⟨fun t cs ov fuel start => chunkTextFuel_eq_spec t cs ov fuel start, by decide⟩

/-!
## C3 — `chunk_text` can loop forever

There is no guard on `overlap`: with `chunk_size = 10, overlap = 7`
(`0 ≤ overlap < chunk_size`) on `stallText` the break-point shrink puts the
window end at `start + 7`, so the cursor advance `end - overlap - start` is
zero and the `while start < text_length` loop never terminates.  The same
stall happens for `overlap ≥ chunk_size`, e.g. `chunk_size = overlap = 1` on
`"aa"`. -/

/-- C3 (code bug): iterating the `chunk_text` loop step from `start = 0`
leaves the cursor at `0` forever — both for `chunk_size = 10, overlap = 7`
(which satisfies `overlap < chunk_size`) on `stallText`, and for
`chunk_size = overlap = 1` on `"aa"` — while the loop guard
`start < text_length` stays true, so the Python loop never exits. -/
theorem chunk_text_cursor_stalls :
    (∀ n : Nat, (stepStart stallText 10 7)^[n] 0 = 0) ∧
      (0 : Int) < (stallText.length : Int) ∧
      (∀ n : Nat, (stepStart ['a', 'a'] 1 1)^[n] 0 = 0) ∧
      (0 : Int) < ((['a', 'a'] : List Char).length : Int) := by
  have h1 : stepStart stallText 10 7 0 = 0 := by decide
  have h2 : stepStart ['a', 'a'] 1 1 0 = 0 := by decide
  refine ⟨?_, by decide, ?_, by decide⟩
  · intro n
    induction n with
    | zero => rfl
    | succ m ih => rw [Function.iterate_succ_apply, h1, ih]
  · intro n
    induction n with
    | zero => rfl
    | succ m ih => rw [Function.iterate_succ_apply, h2, ih]

/-!
## C2 — length bounds on stored chunk text
-/

theorem mem_pageRows_length {embedF : List Char → List ℚ} {f : String}
    {pg : Nat} {chunks : List (List Char)} {r : InsertRow}
    (h : r ∈ pageRows embedF f pg chunks) :
    50 ≤ r.text_chunk.length ∧ r.text_chunk.length ≤ 2000 := by
  unfold pageRows at h
  rw [List.mem_filterMap] at h
  obtain ⟨ic, _, hic⟩ := h
  by_cases hlen : ic.2.length < 50
  · simp [hlen] at hic
  · simp only [hlen, if_neg, if_false] at hic
    cases hic
    simp only [List.length_take]
    omega

theorem mem_prepareData_length {embedF : List Char → List ℚ} {f : String}
    {pc : List (Nat × List Char)} {r : InsertRow}
    (h : r ∈ prepareData embedF f pc) :
    50 ≤ r.text_chunk.length ∧ r.text_chunk.length ≤ 2000 := by
  unfold prepareData at h
  rw [List.mem_flatMap] at h
  obtain ⟨pd, _, hr⟩ := h
  exact mem_pageRows_length hr

/-- C2: every row that `add_pdf_to_db` passes to the collection's insert has
text of length at least 50 and at most 2000 characters — a row of the store
after an ingest is either a pre-existing row or satisfies both bounds; the
sub-50 chunks are dropped by the `continue` before any embedding happens. -/
theorem stored_chunk_length_bounds (store : MilvusStore)
    (embedF : List Char → List ℚ) (f : String)
    (rr : Except String (List (List Char))) (p : Nat × InsertRow)
    (hp : p ∈ (add_pdf_to_db store embedF f rr).1) :
    p ∈ store ∨ (50 ≤ p.2.text_chunk.length ∧ p.2.text_chunk.length ≤ 2000) := by
  have hcases : (add_pdf_to_db store embedF f rr).1 = store ∨
      (add_pdf_to_db store embedF f rr).1 =
        milvusInsert store (prepareData embedF f (extract_text_from_pdf rr)) := by
    unfold add_pdf_to_db
    by_cases h1 : (extract_text_from_pdf rr).isEmpty <;>
      by_cases h2 : (prepareData embedF f (extract_text_from_pdf rr)).isEmpty <;>
        simp [h1, h2]
  rcases hcases with hc | hc
  · rw [hc] at hp
    exact Or.inl hp
  · rw [hc] at hp
    unfold milvusInsert at hp
    rw [List.mem_append] at hp
    rcases hp with hp | hp
    · exact Or.inl hp
    · exact Or.inr (mem_prepareData_length (snd_mem_of_mem_enumIdx hp))

set_option maxRecDepth 100000 in
/-- Witness for C2 at a concrete ingest: the single stored row of
`exStore1`. -/
theorem stored_chunk_length_bounds_witness :
    (0, exRow) ∈ (add_pdf_to_db [] exEmbed "doc.pdf" exDoc).1 ∧
      ((0, exRow) ∈ ([] : MilvusStore) ∨
        (50 ≤ exRow.text_chunk.length ∧ exRow.text_chunk.length ≤ 2000)) :=
  ⟨by decide, stored_chunk_length_bounds [] exEmbed "doc.pdf" exDoc (0, exRow) (by decide)⟩

/-!
## C4 — no upsert: re-ingesting duplicates rows

`_create_collection` declares the primary key as an auto-assigned `INT64`
(`auto_id=True`); `chunk_id` is an ordinary `VARCHAR` field and
`client.insert` is an append, not an upsert.  The chunk ids themselves are
reproduced identically (`generate_chunk_id` is a pure function of
`(filename, page, index)`), but the row count grows on every re-ingest.
-/

/-- C4 counterexample: re-ingesting the identical document into the store
doubles `row_count` (1 then 2) instead of leaving it unchanged. -/
theorem reingest_count_counterexample :
    rowCount exStore2 ≠ rowCount exStore1 ∧
      rowCount exStore1 = 1 ∧ rowCount exStore2 = 2 := by decide

/-- C4 (amended): each ingest appends exactly the prepared rows under fresh
auto-assigned primary keys, so two identical ingests add the prepared batch
twice — `count` is not left unchanged by the second ingest (unless the batch
is empty). -/
theorem reingest_appends_batch_twice (store : MilvusStore)
    (embedF : List Char → List ℚ) (f : String)
    (rr : Except String (List (List Char))) :
    rowCount (add_pdf_to_db store embedF f rr).1 =
        rowCount store + (prepareData embedF f (extract_text_from_pdf rr)).length ∧
      rowCount (add_pdf_to_db (add_pdf_to_db store embedF f rr).1 embedF f rr).1 =
        rowCount store + 2 * (prepareData embedF f (extract_text_from_pdf rr)).length := by
  have key : ∀ st : MilvusStore,
      rowCount (add_pdf_to_db st embedF f rr).1 =
        rowCount st + (prepareData embedF f (extract_text_from_pdf rr)).length := by
    intro st
    unfold add_pdf_to_db
    by_cases h1 : (extract_text_from_pdf rr).isEmpty
    · rw [List.isEmpty_iff] at h1
      simp [h1, prepareData]
    · simp only [h1, if_neg, if_false]
      by_cases h2 : (prepareData embedF f (extract_text_from_pdf rr)).isEmpty
      · rw [List.isEmpty_iff] at h2
        simp [h2, rowCount]
      · simp only [h2, if_neg, if_false]
        simp [milvusInsert, rowCount, length_enumIdx]
  refine ⟨key store, ?_⟩
  rw [key _, key store]
  ring

/-!
## C5 — extraction failure is silently downgraded to an empty result

`extract_text_from_pdf` wraps the whole read in
`try/except Exception: return []`, so a corrupt PDF produces the very value
— the empty list — that a successful extraction with zero text-bearing pages
produces; no `ExtractionError` (or any exception) reaches the caller.
-/

/-- C5 counterexample: the result for a failed read is *equal* to the result
for a successful read of one all-whitespace page, so the caller cannot
distinguish them. -/
theorem extraction_failure_indistinguishable :
    extract_text_from_pdf (.error "PdfReadError") =
        extract_text_from_pdf (.ok [" \n ".toList]) ∧
      extract_text_from_pdf (.error "PdfReadError") = [] := by decide

theorem filter_enumIdx_all_blank {pages : List (List Char)}
    (h : ∀ t ∈ pages, (pyStrip t).isEmpty = true) :
    ∀ n, (enumIdx n pages).filter (fun p => !(pyStrip p.2).isEmpty) = [] := by
  induction pages with
  | nil => intro n; rfl
  | cons t ts ih =>
    intro n
    simp only [enumIdx, List.filter_cons]
    rw [h t (List.mem_cons_self _ _)]
    simp only [Bool.not_true, if_neg, Bool.false_eq_true, not_false_iff, if_false]
    exact ih (fun u hu => h u (List.mem_cons_of_mem _ hu)) (n + 1)

/-- C5 (amended): every extraction error is caught and returns the empty
list, and a successful extraction whose pages are all whitespace also
returns the empty list — the two outcomes coincide, contrary to the claimed
distinct `ExtractionError` signal. -/
theorem extraction_error_returns_empty (e : String) (pages : List (List Char))
    (h : ∀ t ∈ pages, (pyStrip t).isEmpty = true) :
    extract_text_from_pdf (.error e) = [] ∧
      extract_text_from_pdf (.ok pages) = [] := by
  refine ⟨rfl, ?_⟩
  unfold extract_text_from_pdf
  exact filter_enumIdx_all_blank h 1

/-- Witness for C5 (amended) at a one-page all-whitespace document. -/
theorem extraction_error_returns_empty_witness :
    extract_text_from_pdf (.error "corrupt") = [] ∧
      extract_text_from_pdf (.ok [" ".toList]) = [] :=
  extraction_error_returns_empty "corrupt" [" ".toList] (by decide)

/-!
## C6 — the reported score is the backend's COSINE similarity, unchanged

The formatting loop stores `hit['distance']` into `similarity_score` with no
`1 - d` conversion; the collection's metric is `COSINE`, for which the
backend's `distance` field is the cosine similarity itself (abstracted here
as the scoring function `sim`).
-/

/-- C6: every result `search` returns carries as `similarity_score` exactly
the COSINE metric's value `sim` on the query embedding and the stored chunk's
embedding — the backend-reported similarity passed through unchanged, with no
distance-to-similarity conversion applied or needed. -/
theorem search_score_is_cosine_similarity (store : MilvusStore)
    (embedF : String → List ℚ) (sim : List ℚ → List ℚ → ℚ) (query : String)
    (top_k : Nat) (filter_pdf : Option String) (res : SearchResult)
    (hres : res ∈ search store embedF sim query top_k filter_pdf) :
    ∃ key row, (key, row) ∈ store ∧
      res.similarity_score = sim (embedF query) row.embedding ∧
      res.text = row.text_chunk ∧ res.pdf_filename = row.pdf_filename ∧
      res.page_number = row.page_number ∧ res.chunk_id = row.chunk_id := by
  unfold search at hres
  rw [List.mem_map] at hres
  obtain ⟨h, hh, hfmt⟩ := hres
  obtain ⟨p, hp, _, hform⟩ := mem_milvusSearch hh
  refine ⟨p.1, p.2, hp, ?_⟩
  rw [← hfmt, hform]
  exact ⟨rfl, rfl, rfl, rfl, rfl⟩

set_option maxRecDepth 100000 in
/-- Witness for C6: a concrete one-row store and query where the reported
score is the metric's similarity value `1`. -/
theorem search_score_is_cosine_similarity_witness :
    ∃ key row, (key, row) ∈ ([(0, rowA)] : MilvusStore) ∧
      (⟨['x'], "a.pdf", 1, 1, generate_chunk_id "a.pdf" 1 0⟩ :
          SearchResult).similarity_score = (fun _ _ => (1 : ℚ)) ((fun _ => [1]) "q") row.embedding ∧
      (⟨['x'], "a.pdf", 1, 1, generate_chunk_id "a.pdf" 1 0⟩ : SearchResult).text = row.text_chunk ∧
      (⟨['x'], "a.pdf", 1, 1, generate_chunk_id "a.pdf" 1 0⟩ : SearchResult).pdf_filename = row.pdf_filename ∧
      (⟨['x'], "a.pdf", 1, 1, generate_chunk_id "a.pdf" 1 0⟩ : SearchResult).page_number = row.page_number ∧
      (⟨['x'], "a.pdf", 1, 1, generate_chunk_id "a.pdf" 1 0⟩ : SearchResult).chunk_id = row.chunk_id :=
  search_score_is_cosine_similarity [(0, rowA)] (fun _ => [1]) (fun _ _ => 1)
    "q" 5 none ⟨['x'], "a.pdf", 1, 1, generate_chunk_id "a.pdf" 1 0⟩ (by decide)

/-!
## C7 — document filter

`search` builds the Milvus filter expression with `if filter_pdf:` — Python
truthiness — so the *empty-string* filter is silently dropped and the query
runs unfiltered, returning rows whose `pdf_filename` is not equal to the
provided filter.  For any non-empty filter string the claimed behaviour
holds.
-/

/-- C7 counterexample: with the provided filter `""` (which no stored row
matches) the search still returns the `"a.pdf"` row — the result's
`pdf_filename` differs from the filter and the result list is not empty. -/
theorem search_empty_filter_counterexample :
    (search [(0, rowA)] (fun _ => [1]) (fun _ _ => 0) "q" 5 (some "")).map
        (fun r => r.pdf_filename) = ["a.pdf"] ∧
      rowA.pdf_filename ≠ "" := by decide

theorem milvusSearch_all_miss {store : MilvusStore} {sim : List ℚ → List ℚ → ℚ}
    {q : List ℚ} {k : Nat} {f : String}
    (h : ∀ p ∈ store, p.2.pdf_filename ≠ f) :
    milvusSearch store sim q k (some f) = [] := by
  unfold milvusSearch
  have hfilter : store.filter
      (fun p => match (some f : Option String) with
        | some f => decide (p.2.pdf_filename = f)
        | none => true) = [] := by
    rw [List.filter_eq_nil_iff]
    intro p hp
    simp [h p hp]
  rw [hfilter]
  simp [sortHits]

/-- C7 (amended): for every *non-empty* provided filter string, every result
of `search` has `pdf_filename` equal to the filter, at most `top_k` results
are returned, and a filter matched by zero stored rows yields the empty list
rather than an error. -/
theorem search_filter_correct (store : MilvusStore) (embedF : String → List ℚ)
    (sim : List ℚ → List ℚ → ℚ) (query : String) (top_k : Nat) (f : String)
    (hf : f ≠ "") :
    (∀ r ∈ search store embedF sim query top_k (some f), r.pdf_filename = f) ∧
      (search store embedF sim query top_k (some f)).length ≤ top_k ∧
      ((∀ p ∈ store, p.2.pdf_filename ≠ f) →
        search store embedF sim query top_k (some f) = []) := by
  have hexpr : (match some f with
      | some g => if g = "" then (none : Option String) else some g
      | none => none) = some f := by simp [hf]
  refine ⟨?_, ?_, ?_⟩
  · intro r hr
    unfold search at hr
    rw [hexpr, List.mem_map] at hr
    obtain ⟨h, hh, hfmt⟩ := hr
    obtain ⟨p, _, hmatch, hform⟩ := mem_milvusSearch hh
    rw [← hfmt, hform]
    exact hmatch f rfl
  · unfold search milvusSearch
    rw [hexpr, List.length_map]
    exact List.length_take_le _ _
  · intro hmiss
    unfold search
    rw [hexpr]
    show (milvusSearch store sim (embedF query) top_k (some f)).map _ = []
    rw [milvusSearch_all_miss hmiss]
    rfl

/-- Witness for C7 (amended) at a concrete non-empty filter. -/
theorem search_filter_correct_witness :
    ("a.pdf" : String) ≠ "" ∧
      ∀ r ∈ search [(0, rowA)] (fun _ => [1]) (fun _ _ => 0) "q" 5 (some "a.pdf"),
        r.pdf_filename = "a.pdf" :=
  ⟨by decide,
    (search_filter_correct [(0, rowA)] (fun _ => [1]) (fun _ _ => 0) "q" 5
      "a.pdf" (by decide)).1⟩

/-!
## C8 — ingest reports nothing to its caller

`add_pdf_to_db` ends without a `return` value on every code path: no
`{chunks_added: int}`, no `IngestError`, and the "no valid chunks" case is
only a `print`.  The upload endpoint then answers with the same success JSON
whether or not any chunk was indexed.
-/

/-- C8 counterexample: a document yielding zero valid chunks produces the
same `None` return value and the same success response as a document whose
ingest stored a chunk — the two outcomes differ only in the store itself. -/
theorem ingest_outcome_indistinguishable :
    (add_pdf_to_db [] exEmbed "doc.pdf" shortDoc).2 =
        (add_pdf_to_db [] exEmbed "doc.pdf" exDoc).2 ∧
      (add_pdf_to_db [] exEmbed "doc.pdf" exDoc).2 = none ∧
      (upload_pdf [] exEmbed "doc.pdf" shortDoc true).2 =
        (upload_pdf [] exEmbed "doc.pdf" exDoc true).2 ∧
      rowCount (add_pdf_to_db [] exEmbed "doc.pdf" shortDoc).1 = 0 ∧
      rowCount (add_pdf_to_db [] exEmbed "doc.pdf" exDoc).1 = 1 := by decide

/-- C8 (amended): `add_pdf_to_db` returns `None` on every input — never a
`chunks_added` count nor an error value — and after a successful storage
upload the endpoint returns the same success response regardless of the
ingest's outcome. -/
theorem add_pdf_returns_none (store : MilvusStore)
    (embedF : List Char → List ℚ) (f : String)
    (rr : Except String (List (List Char))) :
    (add_pdf_to_db store embedF f rr).2 = none ∧
      (upload_pdf store embedF f rr true).2 =
        ⟨true, "Successfully uploaded and indexed " ++ f⟩ := by
  constructor
  · unfold add_pdf_to_db
    by_cases h1 : (extract_text_from_pdf rr).isEmpty <;>
      by_cases h2 : (prepareData embedF f (extract_text_from_pdf rr)).isEmpty <;>
        simp [h1, h2]
  · rfl

/-!
## C9 — `generate_chunk_id` is a pure 128-bit content hash
-/

theorem mem_wordLE_lt {b w : Nat} (h : b ∈ wordLE w) : b < 256 := by
  simp only [wordLE, List.mem_cons, List.not_mem_nil, or_false] at h
  rcases h with h | h | h | h <;> subst h <;> exact Nat.mod_lt _ (by norm_num)

theorem md5Bytes_length (msg : List Nat) : (md5Bytes msg).length = 16 := by
  simp [md5Bytes, wordLE]

theorem mem_md5Bytes_lt {msg : List Nat} {b : Nat} (h : b ∈ md5Bytes msg) :
    b < 256 := by
  unfold md5Bytes at h
  rcases List.mem_append.mp h with h | h
  · rcases List.mem_append.mp h with h | h
    · rcases List.mem_append.mp h with h | h
      · exact mem_wordLE_lt h
      · exact mem_wordLE_lt h
    · exact mem_wordLE_lt h
  · exact mem_wordLE_lt h

theorem hexDigit_isHex {n : Nat} (h : n < 16) :
    isLowerHexDigit (hexDigit n) = true := by
  interval_cases n <;> decide

theorem hexFold_length (l : List Nat) :
    (l.foldr (fun b acc => hexDigit (b / 16) :: hexDigit (b % 16) :: acc)
      []).length = 2 * l.length := by
  induction l with
  | nil => rfl
  | cons b l ih => simp [List.foldr_cons, ih]; ring

theorem hexFold_all (l : List Nat) (h : ∀ b ∈ l, b < 256) :
    (l.foldr (fun b acc => hexDigit (b / 16) :: hexDigit (b % 16) :: acc)
      []).all isLowerHexDigit = true := by
  induction l with
  | nil => rfl
  | cons b l ih =>
    have hb : b < 256 := h b (List.mem_cons_self _ _)
    have hdiv : b / 16 < 16 := by omega
    have hmod : b % 16 < 16 := Nat.mod_lt _ (by norm_num)
    simp only [List.foldr_cons, List.all_cons, Bool.and_eq_true]
    exact ⟨hexDigit_isHex hdiv,
      hexDigit_isHex hmod, ih (fun c hc => h c (List.mem_cons_of_mem _ hc))⟩

/-- C9: `generate_chunk_id` is the MD5 content hash of the three fields
joined with the `"_"` separator (its value is a pure function of the
arguments — calling it twice on identical arguments gives syntactically the
same term, with no randomness or machine state in the model), and its output
is exactly 32 lowercase hexadecimal characters, i.e. a rendered 128-bit
digest. -/
theorem generate_chunk_id_content_hash :
    ∀ (f : String) (p i : Nat),
      generate_chunk_id f p i =
          md5hex (utf8Encode (f ++ "_" ++ toString p ++ "_" ++ toString i)) ∧
        (generate_chunk_id f p i).length = 32 ∧
        (generate_chunk_id f p i).toList.all isLowerHexDigit = true := by
  intro f p i
  refine ⟨rfl, ?_, ?_⟩
  · show (md5hex _).length = 32
    unfold md5hex
    show (List.foldr _ [] _).length = 32
    rw [hexFold_length, md5Bytes_length]
  · show (md5hex _).toList.all isLowerHexDigit = true
    unfold md5hex
    show (List.foldr _ [] _).all isLowerHexDigit = true
    exact hexFold_all _ (fun b hb => mem_md5Bytes_lt hb)

/-!
## C10 — chunk indices are assigned before the minimum-length filter

The ingest loop is `for chunk_idx, chunk in enumerate(chunks)` with the
`len(chunk) < 50` test *inside* the loop, so a stored chunk's id uses its
position in the full `chunk_text` output and the surviving indices on a page
can skip the discarded ones.
-/

theorem filterMap_rows_chunk_ids (embedF : List Char → List ℚ) (f : String)
    (pg : Nat) :
    ∀ l : List (Nat × List Char),
      ((l.filterMap fun ic =>
          if ic.2.length < 50 then none
          else some (⟨embedF ic.2, ic.2.take 2000, f, pg,
            generate_chunk_id f pg ic.1⟩ : InsertRow)).map
        (fun r => r.chunk_id)) =
        (l.filter fun ic => decide (50 ≤ ic.2.length)).map
          (fun ic => generate_chunk_id f pg ic.1) := by
  intro l
  induction l with
  | nil => rfl
  | cons ic l ih =>
    by_cases h : ic.2.length < 50
    · have h2 : ¬ (50 ≤ ic.2.length) := by omega
      simp [List.filterMap_cons, List.filter_cons, h, h2, ih]
    · have h2 : 50 ≤ ic.2.length := by omega
      simp [List.filterMap_cons, List.filter_cons, h, h2, ih]

set_option maxRecDepth 100000 in
/-- C10: the chunk ids a page's loop stores are `generate_chunk_id` applied
to the *pre-filter* positions of the chunks that pass the 50-character
minimum — so with chunks of lengths 60, 3, 60 the stored ids use indices 0
and 2, skipping the discarded index 1. -/
theorem chunk_index_counted_before_filter :
    (∀ (embedF : List Char → List ℚ) (f : String) (pg : Nat)
        (chunks : List (List Char)),
      (pageRows embedF f pg chunks).map (fun r => r.chunk_id) =
        ((enumIdx 0 chunks).filter fun ic => decide (50 ≤ ic.2.length)).map
          (fun ic => generate_chunk_id f pg ic.1)) ∧
      (pageRows exEmbed "doc.pdf" 1 [sixtyAs, "hi.".toList, sixtyBs]).map
          (fun r => r.chunk_id) =
        [generate_chunk_id "doc.pdf" 1 0, generate_chunk_id "doc.pdf" 1 2] :=
  ⟨fun embedF f pg chunks => filterMap_rows_chunk_ids embedF f pg (enumIdx 0 chunks),
    by decide⟩

end KnowledgePad
